import Mathlib

/-!
Verification of the LongTermCare optics repository.

Shallow embedding of the two source files, `LensSystem.py` and
`LensCalculator.py`, over the rationals.  Python float division by zero
raises `ZeroDivisionError`; a computation that can raise is embedded as
an `Option`-valued function returning `none` at a fault (an out-of-range
list index, Python `IndexError`, is likewise `none`).  Python's
`float('inf')` is embedded with the two-constructor type `PyFloat`.
The transcendental quantities (the Bessel function `j0` and the wave
number `2*pi/wavelength`) are abstract parameters of the wave-optics
definitions.
-/

/-- A real 2 by 2 matrix, as produced by the numpy expressions in
`LensSystem.transfer_matrix`: entries `a b / c d` are `M[0][0] M[0][1] /
M[1][0] M[1][1]`. -/
structure Mat2 where
  a : ℚ
  b : ℚ
  c : ℚ
  d : ℚ
deriving DecidableEq

/-- Matrix product, the numpy `@` operator on 2 by 2 matrices. -/
def Mat2.mul (M N : Mat2) : Mat2 :=
  ⟨M.a * N.a + M.b * N.c, M.a * N.b + M.b * N.d,
   M.c * N.a + M.d * N.c, M.c * N.b + M.d * N.d⟩

/-- The identity matrix `np.eye(2)`. -/
def Mat2.eye : Mat2 := ⟨1, 0, 0, 1⟩

/-- `OpticalMaterial` from `LensSystem.py`: reference refractive index and
thermal coefficient.  The reference temperature is fixed at 20.0 degrees
Celsius by the constructor, so it is a constant here, not a field. -/
structure OpticalMaterial where
  n0 : ℚ
  dn_dT : ℚ
deriving DecidableEq

/-- The constructor-fixed `reference_temp` field, 20.0 degrees Celsius. -/
def OpticalMaterial.reference_temp : ℚ := 20

/-- `OpticalMaterial.get_n`: refractive index at temperature `T`. -/
def OpticalMaterial.get_n (m : OpticalMaterial) (T : ℚ) : ℚ :=
  m.n0 + m.dn_dT * (T - OpticalMaterial.reference_temp)

/-- Default material used only to state `List.getD` lookups that are in
range wherever they are used. -/
def defaultMaterial : OpticalMaterial := ⟨1, 0⟩

/-- `LensSystem` from `LensSystem.py`: ordered focal lengths, inter-lens
distances, per-lens materials, and the mutable operating temperature
(initialised to 20.0 by the constructor, mutated by the temperature sweep
in `plot_system_analysis`). -/
structure LensSystem where
  focal_lengths : List ℚ
  distances : List ℚ
  materials : List OpticalMaterial
  temperature : ℚ

/-- Loop body of `LensSystem.transfer_matrix`, recursing over the focal
lengths with the running index `i` and accumulator `M`.  For each lens:
the propagation matrix `P` is `[[1, d_i], [0, 1]]` when `i` is in range of
`distances` and `np.eye(2)` otherwise; the material lookup
`self.materials[i]` raises `IndexError` out of range (`none`); the thin
lens matrix divides by `f * n`, raising `ZeroDivisionError` when that
product is zero (`none`); the accumulator is updated to `M @ P @ L`. -/
def LensSystem.transferAux (sys : LensSystem) : List ℚ → Nat → Mat2 → Option Mat2
  | [], _, M => some M
  | f :: fs, i, M =>
    let P : Mat2 :=
      if i < sys.distances.length then ⟨1, sys.distances.getD i 0, 0, 1⟩ else Mat2.eye
    match sys.materials[i]? with
    | none => none
    | some mat =>
      let n := mat.get_n sys.temperature
      if f * n = 0 then none
      else sys.transferAux fs (i + 1) ((M.mul P).mul ⟨1, 0, -1 / (f * n), 1⟩)

/-- `LensSystem.transfer_matrix`: fold the per-lens update over all focal
lengths starting from the identity. -/
def LensSystem.transfer_matrix (sys : LensSystem) : Option Mat2 :=
  sys.transferAux sys.focal_lengths 0 Mat2.eye

/-- Modelled from the spec: the factor contributed by lens `i`, the
product `P_i * L_i` of the propagation matrix before lens `i` (identity
when distances are exhausted) and the thin-lens matrix
`[[1, 0], [-1/(f_i * n_i), 1]]` with `n_i = materials[i].get_n(T)`. -/
def lensStep (sys : LensSystem) (f : ℚ) (i : Nat) : Mat2 :=
  let P : Mat2 :=
    if i < sys.distances.length then ⟨1, sys.distances.getD i 0, 0, 1⟩ else Mat2.eye
  let n := (sys.materials.getD i defaultMaterial).get_n sys.temperature
  P.mul ⟨1, 0, -1 / (f * n), 1⟩

/-- Modelled from the spec: the left-to-right product
`(P_0 L_0) * (P_1 L_1) * ... * (P_rest L_rest)` starting from the 2 by 2
identity, against which `transfer_matrix` is compared. -/
def specTransferMatrix (sys : LensSystem) : Mat2 :=
  (List.range sys.focal_lengths.length).foldl
    (fun A j => A.mul (lensStep sys (sys.focal_lengths.getD j 0) j)) Mat2.eye

/-- Embedding of `np.linspace(start, stop, num)`: `num` evenly spaced
samples from `start` to `stop`, endpoint included; one sample gives
`[start]`, zero samples give the empty list. -/
def linspace (start stop : ℚ) (num : Nat) : List ℚ :=
  if num ≤ 1 then List.replicate num start
  else (List.range num).map fun i : Nat => start + (stop - start) * (i : ℚ) / ((num : ℚ) - 1)

/-- `WaveOpticsCalculator.calculate_diffraction`, parametric in the
zeroth-order Bessel function `J0` (scipy `j0`) and the wave number `k`
(`2*pi/wavelength`, from `WaveProperties`), both transcendental: samples
`r` on `[0, aperture_radius * 10]` with `points` samples and squares the
scaled Bessel amplitude elementwise. -/
def calculate_diffraction (J0 : ℚ → ℚ) (k : ℚ)
    (aperture_radius distance : ℚ) (points : Nat) : List ℚ × List ℚ :=
  let r := linspace 0 (aperture_radius * 10) points
  (r, r.map fun x => (aperture_radius * J0 (k * aperture_radius * x / distance)) ^ 2)

/-- Walk of `RayTracer.trace_ray` over the inter-lens distances: `z`
accumulates each distance and the pair `(z, yOut)` is appended, where
`yOut` is the already-computed output ray height. -/
def traceWalk (yOut : ℚ) : ℚ → List ℚ → List (ℚ × ℚ)
  | _, [] => []
  | z, d :: ds => (z + d, yOut) :: traceWalk yOut (z + d) ds

/-- `RayTracer.trace_ray`: apply the whole-system transfer matrix once to
the input ray `[y0, theta0]`, then walk the distances recording `(z, ray[0])`;
the list starts with `(0, y0)`.  Propagates the `transfer_matrix` fault. -/
def trace_ray (sys : LensSystem) (y0 theta0 : ℚ) : Option (List (ℚ × ℚ)) :=
  match sys.transfer_matrix with
  | none => none
  | some M => some ((0, y0) :: traceWalk (M.a * y0 + M.b * theta0) 0 sys.distances)

/-- `OpticalSystemOptimizer.optimize_focal_length`: read the current
transfer matrix, derive `current_f = -1/M[1][0]` (a `ZeroDivisionError`
when `M[1][0]` is zero), scale every distance by `target_f / current_f`. -/
def optimize_focal_length (sys : LensSystem) (target_f : ℚ) : Option (List ℚ) :=
  match sys.transfer_matrix with
  | none => none
  | some M =>
    if M.c = 0 then none
    else
      let current_f := -1 / M.c
      some (sys.distances.map fun d => d * (target_f / current_f))

/-- State-passing form of `optimize_focal_length`: the method body reads
`self.lens_system` and builds a fresh list by comprehension; every
statement of the body is a read, so the post-state lens system is carried
through each branch unchanged. -/
def optimize_focal_length_run (sys : LensSystem) (target_f : ℚ) :
    Option (List ℚ) × LensSystem :=
  match sys.transfer_matrix with
  | none => (none, sys)
  | some M =>
    if M.c = 0 then (none, sys)
    else
      let current_f := -1 / M.c
      (some (sys.distances.map fun d => d * (target_f / current_f)), sys)

/-- Concrete one-lens system used by the witnesses: focal length 2, one
inter-lens distance 3, one material of constant index 1, temperature 20. -/
def witnessSystem : LensSystem := ⟨[2], [3], [⟨1, 0⟩], 20⟩

/-- The transfer matrix of witnessSystem, computed by hand:
`P = [[1,3],[0,1]]` times `L = [[1,0],[-1/2,1]]`. -/
def witnessMatrix : Mat2 := ⟨-1/2, 3, -1/2, 1⟩

/-- `LensType` enumeration from `LensCalculator.py`. -/
inductive LensType where
  | converging
  | diverging
  | achromatic
  | fresnel
deriving DecidableEq

/-- `Lens` from `LensCalculator.py`: focal length, type and diameter (the
refractive index 1.5 and dispersion 0.02 are constructor-fixed constants
not needed by the combination formulas). -/
structure Lens where
  focal_length : ℚ
  lens_type : LensType
  diameter : ℚ
deriving DecidableEq

/-- A Python float result that can be the special value `float('inf')`. -/
inductive PyFloat where
  | val : ℚ → PyFloat
  | inf : PyFloat
deriving DecidableEq

/-- `LensCalculator.series_focal_length`: 0 for the empty list by the
explicit early return; otherwise the sum of reciprocal focal lengths is
the total power (a `ZeroDivisionError`, `none`, when some focal length is
zero), and the result is its reciprocal, or `float('inf')` when the total
power is exactly zero. -/
def series_focal_length (lenses : List Lens) : Option PyFloat :=
  if lenses.isEmpty then some (PyFloat.val 0)
  else if ∀ l ∈ lenses, l.focal_length ≠ 0 then
    let total_power := (lenses.map fun l => 1 / l.focal_length).sum
    if total_power ≠ 0 then some (PyFloat.val (1 / total_power)) else some PyFloat.inf
  else none

/-- `LensCalculator.parallel_focal_length`: the sum of the focal lengths. -/
def parallel_focal_length (lenses : List Lens) : ℚ :=
  (lenses.map fun l => l.focal_length).sum

/-- Associativity of the 2 by 2 matrix product. -/
theorem Mat2.mul_assoc (A B C : Mat2) : (A.mul B).mul C = A.mul (B.mul C) := by
  cases A; cases B; cases C
  simp only [Mat2.mul, Mat2.mk.injEq]
  refine ⟨by ring, by ring, by ring, by ring⟩

/-- The identity matrix is a left unit for the product. -/
theorem Mat2.eye_mul (A : Mat2) : Mat2.eye.mul A = A := by
  cases A
  simp only [Mat2.mul, Mat2.eye, Mat2.mk.injEq]
  refine ⟨by ring, by ring, by ring, by ring⟩

/-- A linspace sample list has exactly the requested number of samples. -/
theorem linspace_length (s e : ℚ) (n : Nat) : (linspace s e n).length = n := by
  unfold linspace
  split
  · simp
  · rw [List.length_map, List.length_range]

/-- Claim C6: get_n(T) returns exactly n0 + dn_dT*(T - 20) for every T, with
no domain restriction, and get_n(20) = n0 for every material. -/
theorem C6_get_n (m : OpticalMaterial) (T : ℚ) :
    m.get_n T = m.n0 + m.dn_dT * (T - 20) ∧ m.get_n 20 = m.n0 := by
  constructor
  · rfl
  · simp [OpticalMaterial.get_n, OpticalMaterial.reference_temp]

/-- Claim C7: parallel_focal_length is the arithmetic sum of the focal
lengths, characterised recursively, and the empty list yields 0. -/
theorem C7_parallel :
    parallel_focal_length [] = 0 ∧
    ∀ (l : Lens) (ls : List Lens),
      parallel_focal_length (l :: ls) = l.focal_length + parallel_focal_length ls := by
  constructor
  · rfl
  · intro l ls
    simp [parallel_focal_length]

/-- Claim C10: a LensSystem with empty focal_lengths has the 2 by 2 identity
transfer matrix, for every distances list, materials list and temperature. -/
theorem C10_empty_transfer (ds : List ℚ) (ms : List OpticalMaterial) (T : ℚ) :
    LensSystem.transfer_matrix ⟨[], ds, ms, T⟩ = some ⟨1, 0, 0, 1⟩ := rfl

/-- Claim C9: optimize_focal_length leaves the lens system unchanged: every
field of the post-state equals its pre-state value, and the returned value
is the pure function of the pre-state. -/
theorem C9_optimizer_frame (sys : LensSystem) (tf : ℚ) :
    (optimize_focal_length_run sys tf).2.focal_lengths = sys.focal_lengths ∧
    (optimize_focal_length_run sys tf).2.distances = sys.distances ∧
    (optimize_focal_length_run sys tf).2.materials = sys.materials ∧
    (optimize_focal_length_run sys tf).2.temperature = sys.temperature ∧
    (optimize_focal_length_run sys tf).1 = optimize_focal_length sys tf := by
  unfold optimize_focal_length_run optimize_focal_length
  cases h : sys.transfer_matrix with
  | none => simp
  | some M =>
    by_cases hc : M.c = 0 <;> simp [hc]

/-- Claim C8: for nonzero distance, calculate_diffraction returns the pair
whose first component is the uniform sampling of the interval from 0 to
ten aperture radii with the requested number of samples, and whose second
component is elementwise the square of aperture_radius times J0 of
k times aperture_radius times r over distance. -/
theorem C8_diffraction (J0 : ℚ → ℚ) (k a D : ℚ) (points : Nat) (hD : D ≠ 0) :
    (calculate_diffraction J0 k a D points).1 = linspace 0 (a * 10) points ∧
    (calculate_diffraction J0 k a D points).1.length = points ∧
    (calculate_diffraction J0 k a D points).2.length = points ∧
    ∀ i x, (calculate_diffraction J0 k a D points).1.get? i = some x →
      (calculate_diffraction J0 k a D points).2.get? i =
        some ((a * J0 (k * a * x / D)) ^ 2) := by
  refine ⟨rfl, linspace_length 0 (a * 10) points, ?_, ?_⟩
  · simp [calculate_diffraction, linspace_length]
  · intro i x hx
    simp only [calculate_diffraction] at hx ⊢
    rw [List.get?_map, hx]
    rfl

/-- Witness for C8 at concrete inputs. -/
theorem C8_diffraction_witness :
    (1 : ℚ) ≠ 0 ∧
    ((calculate_diffraction (fun x => x) 2 1 1 3).1 = linspace 0 (1 * 10) 3 ∧
     (calculate_diffraction (fun x => x) 2 1 1 3).1.length = 3 ∧
     (calculate_diffraction (fun x => x) 2 1 1 3).2.length = 3 ∧
     ∀ i x, (calculate_diffraction (fun x => x) 2 1 1 3).1.get? i = some x →
       (calculate_diffraction (fun x => x) 2 1 1 3).2.get? i =
         some ((1 * (fun x => x) (2 * 1 * x / 1)) ^ 2)) :=
  ⟨by norm_num, C8_diffraction (fun x => x) 2 1 1 3 (by norm_num)⟩

/-- Evaluation of series_focal_length on a nonempty list of lenses with
nonzero focal lengths: the guard and the early return are discharged,
leaving the total-power case split. -/
theorem series_focal_length_eval (lenses : List Lens) (hne : lenses ≠ [])
    (hnz : ∀ l ∈ lenses, l.focal_length ≠ 0) :
    series_focal_length lenses =
      if (lenses.map fun l => 1 / l.focal_length).sum ≠ 0
      then some (PyFloat.val (1 / (lenses.map fun l => 1 / l.focal_length).sum))
      else some PyFloat.inf := by
  simp only [series_focal_length]
  rw [if_neg (by simp [List.isEmpty_iff, hne]), if_pos hnz]

/-- Claim C5: series_focal_length returns 0 on the empty list, otherwise
(all focal lengths nonzero) the reciprocal of the total power when that
power is nonzero and plus infinity when it is zero; a single lens yields
its own focal length and an opposite pair yields plus infinity. -/
theorem C5_series :
    series_focal_length [] = some (PyFloat.val 0) ∧
    (∀ lenses : List Lens, lenses ≠ [] → (∀ l ∈ lenses, l.focal_length ≠ 0) →
      ((lenses.map fun l => 1 / l.focal_length).sum ≠ 0 →
        series_focal_length lenses =
          some (PyFloat.val (1 / (lenses.map fun l => 1 / l.focal_length).sum))) ∧
      ((lenses.map fun l => 1 / l.focal_length).sum = 0 →
        series_focal_length lenses = some PyFloat.inf)) ∧
    (∀ (t : LensType) (dia f : ℚ), f ≠ 0 →
      series_focal_length [⟨f, t, dia⟩] = some (PyFloat.val f)) ∧
    (∀ (t1 t2 : LensType) (d1 d2 f : ℚ), f ≠ 0 →
      series_focal_length [⟨f, t1, d1⟩, ⟨-f, t2, d2⟩] = some PyFloat.inf) := by
  refine ⟨rfl, ?_, ?_, ?_⟩
  · intro lenses hne hnz
    rw [series_focal_length_eval lenses hne hnz]
    constructor
    · intro hp
      rw [if_pos hp]
    · intro hp
      rw [if_neg (fun h => h hp)]
  · intro t dia f hf
    have h1 : (1 : ℚ) / f ≠ 0 := one_div_ne_zero hf
    rw [series_focal_length_eval _ (by simp) (by simpa using hf)]
    simp [h1, hf, one_div_one_div]
  · intro t1 t2 d1 d2 f hf
    have hnf : -f ≠ 0 := neg_ne_zero.mpr hf
    have hsum : ((([⟨f, t1, d1⟩, ⟨-f, t2, d2⟩] : List Lens).map
        fun l => 1 / l.focal_length).sum : ℚ) = 0 := by
      simp only [List.map_cons, List.map_nil, List.sum_cons, List.sum_nil]
      field_simp
    rw [series_focal_length_eval _ (by simp) ?allnz]
    case allnz =>
      intro l hl
      simp only [List.mem_cons, List.not_mem_nil, or_false] at hl
      rcases hl with h | h
      · subst h; exact hf
      · subst h; exact hnf
    rw [if_neg (fun h => h hsum)]

/-- Witness for C5, instantiating the opposite-pair conjunct at f = 5. -/
theorem C5_series_witness :
    (5 : ℚ) ≠ 0 ∧
    series_focal_length
      [⟨5, LensType.converging, 5⟩, ⟨-5, LensType.converging, 5⟩] = some PyFloat.inf :=
  ⟨by norm_num, C5_series.2.2.2 LensType.converging LensType.converging 5 5 5 (by norm_num)⟩

/-- Claim C2: with the transfer matrix defined and its lower-left entry
nonzero, optimize_focal_length scales every distance by
target_f over the current effective focal length -1/M[1][0], and hitting
the current effective focal length returns the distances unchanged. -/
theorem C2_optimize (sys : LensSystem) (M : Mat2) (tf : ℚ)
    (hM : sys.transfer_matrix = some M) (hc : M.c ≠ 0) :
    optimize_focal_length sys tf =
      some (sys.distances.map fun d => d * (tf / (-1 / M.c))) ∧
    optimize_focal_length sys (-1 / M.c) = some sys.distances := by
  have hmain : ∀ t : ℚ, optimize_focal_length sys t =
      some (sys.distances.map fun d => d * (t / (-1 / M.c))) := by
    intro t
    unfold optimize_focal_length
    rw [hM]
    simp [hc]
  refine ⟨hmain tf, ?_⟩
  rw [hmain (-1 / M.c)]
  have hne : (-1 : ℚ) / M.c ≠ 0 := div_ne_zero (by norm_num) hc
  rw [div_self hne]
  simp

/-- The witness system evaluates to the hand-computed transfer matrix. -/
theorem witnessSystem_transfer :
    witnessSystem.transfer_matrix = some witnessMatrix := by
  norm_num [witnessSystem, witnessMatrix, LensSystem.transfer_matrix,
    LensSystem.transferAux, Mat2.mul, Mat2.eye, OpticalMaterial.get_n,
    OpticalMaterial.reference_temp, List.getD]

/-- The witness matrix has nonzero lower-left entry. -/
theorem witnessMatrix_c_ne : witnessMatrix.c ≠ 0 := by
  norm_num [witnessMatrix]

/-- Witness for C2 on a one-lens system with one distance. -/
theorem C2_optimize_witness :
    witnessSystem.transfer_matrix = some witnessMatrix ∧
    witnessMatrix.c ≠ 0 ∧
    optimize_focal_length witnessSystem (-1 / witnessMatrix.c) = some [3] :=
  ⟨witnessSystem_transfer, witnessMatrix_c_ne,
    (C2_optimize witnessSystem witnessMatrix 0
      witnessSystem_transfer witnessMatrix_c_ne).2⟩

/-- The trace walk records one pair per inter-lens distance. -/
theorem traceWalk_length (y z : ℚ) (ds : List ℚ) :
    (traceWalk y z ds).length = ds.length := by
  induction ds generalizing z with
  | nil => rfl
  | cons d ds ih => simp [traceWalk, ih]

/-- The k-th pair of the trace walk is the running coordinate, the sum of
the first k+1 distances added to the start, paired with the fixed output
height. -/
theorem traceWalk_get (y : ℚ) (ds : List ℚ) :
    ∀ (z : ℚ) (k : Nat), k < ds.length →
      (traceWalk y z ds).get? k = some (z + (ds.take (k + 1)).sum, y) := by
  induction ds with
  | nil =>
    intro z k h
    simp at h
  | cons d ds ih =>
    intro z k h
    cases k with
    | zero =>
      simp [traceWalk]
    | succ k =>
      have hk : k < ds.length := by simpa using h
      show (traceWalk y (z + d) ds).get? k = _
      rw [ih (z + d) k hk]
      simp [add_assoc]

/-- Claim C3: trace_ray returns a list of length distances+1 whose head is
(0, y0) and whose pair k+1 is the sum of the first k+1 distances paired
with the first component of M applied to the input ray, the same height at
every recorded position. -/
theorem C3_trace_ray (sys : LensSystem) (y0 th0 : ℚ) (M : Mat2)
    (hM : sys.transfer_matrix = some M) :
    ∃ L, trace_ray sys y0 th0 = some L ∧
      L.length = sys.distances.length + 1 ∧
      L.get? 0 = some (0, y0) ∧
      ∀ k, k < sys.distances.length →
        L.get? (k + 1) = some ((sys.distances.take (k + 1)).sum,
          M.a * y0 + M.b * th0) := by
  refine ⟨(0, y0) :: traceWalk (M.a * y0 + M.b * th0) 0 sys.distances, ?_, ?_, rfl, ?_⟩
  · unfold trace_ray
    rw [hM]
  · simp [traceWalk_length]
  · intro k hk
    have h := traceWalk_get (M.a * y0 + M.b * th0) sys.distances 0 k hk
    show (traceWalk (M.a * y0 + M.b * th0) 0 sys.distances).get? k = _
    rw [h, zero_add]

/-- Witness for C3 on a one-lens system with one distance. -/
theorem C3_trace_ray_witness :
    witnessSystem.transfer_matrix = some witnessMatrix ∧
    ∃ L, trace_ray witnessSystem 1 0 = some L ∧
      L.length = witnessSystem.distances.length + 1 ∧
      L.get? 0 = some (0, 1) ∧
      ∀ k, k < witnessSystem.distances.length →
        L.get? (k + 1) = some ((witnessSystem.distances.take (k + 1)).sum,
          witnessMatrix.a * 1 + witnessMatrix.b * 0) :=
  ⟨witnessSystem_transfer,
    C3_trace_ray witnessSystem 1 0 witnessMatrix witnessSystem_transfer⟩

/-- Invariant of the transfer-matrix loop: starting at index i with
accumulator M, when the materials list covers the remaining lenses and no
remaining product f times n is zero, the loop returns the left fold of the
per-lens factors over the remaining indices. -/
theorem transferAux_eq_foldl (sys : LensSystem) :
    ∀ (fs : List ℚ) (i : Nat) (M : Mat2),
      i + fs.length ≤ sys.materials.length →
      (∀ j, j < fs.length →
        fs.getD j 0 *
          ((sys.materials.getD (i + j) defaultMaterial).get_n sys.temperature) ≠ 0) →
      sys.transferAux fs i M =
        some ((List.range fs.length).foldl
          (fun A j => A.mul (lensStep sys (fs.getD j 0) (i + j))) M) := by
  intro fs
  induction fs with
  | nil =>
    intro i M _ _
    rfl
  | cons f fs ih =>
    intro i M hm hnz
    have hi : i < sys.materials.length := by
      simp only [List.length_cons] at hm
      omega
    rcases hx : sys.materials[i]? with _ | m
    · rw [List.getElem?_eq_getElem hi] at hx
      cases hx
    have hm_eq : m = sys.materials.getD i defaultMaterial := by
      rw [List.getD_eq_getElem _ _ hi]
      rw [List.getElem?_eq_getElem hi] at hx
      exact (Option.some.inj hx).symm
    have hfn : f * ((sys.materials.getD i defaultMaterial).get_n sys.temperature) ≠ 0 := by
      have h := hnz 0 (by simp)
      simpa using h
    have hfn2 : ¬ f * m.get_n sys.temperature = 0 := by
      rw [hm_eq]
      exact hfn
    simp only [LensSystem.transferAux, hx, if_neg hfn2]
    rw [ih (i + 1) _ (by simp only [List.length_cons] at hm; omega) ?hshift]
    case hshift =>
      intro j hj
      have h := hnz (j + 1) (by simpa using hj)
      have he : i + (j + 1) = (i + 1) + j := by omega
      rw [List.getD_cons_succ, he] at h
      exact h
    congr 1
    rw [List.length_cons, List.range_succ_eq_map, List.foldl_cons, List.foldl_map]
    have hstep : M.mul (lensStep sys ((f :: fs).getD 0 0) (i + 0)) =
        (M.mul (if i < sys.distances.length then
          (⟨1, sys.distances.getD i 0, 0, 1⟩ : Mat2) else Mat2.eye)).mul
          ⟨1, 0, -1 / (f * m.get_n sys.temperature), 1⟩ := by
      rw [hm_eq, Mat2.mul_assoc]
      rfl
    rw [← hstep]
    have hfun : ∀ (A : Mat2) (j : Nat),
        A.mul (lensStep sys ((f :: fs).getD (Nat.succ j) 0) (i + Nat.succ j)) =
        A.mul (lensStep sys (fs.getD j 0) ((i + 1) + j)) := by
      intro A j
      have he : i + Nat.succ j = (i + 1) + j := by omega
      rw [List.getD_cons_succ, he]
    simp only [hfun]

/-- Invariant of the transfer-matrix loop for the faulting direction: if
some remaining lens has f times n equal to zero (the materials list
covering the remaining lenses), the loop raises, returning none. -/
theorem transferAux_none (sys : LensSystem) :
    ∀ (fs : List ℚ) (i : Nat) (M : Mat2),
      i + fs.length ≤ sys.materials.length →
      (∃ j, j < fs.length ∧
        fs.getD j 0 *
          ((sys.materials.getD (i + j) defaultMaterial).get_n sys.temperature) = 0) →
      sys.transferAux fs i M = none := by
  intro fs
  induction fs with
  | nil =>
    rintro i M _ ⟨j, hj, _⟩
    simp at hj
  | cons f fs ih =>
    rintro i M hm ⟨j, hj, hz⟩
    have hi : i < sys.materials.length := by
      simp only [List.length_cons] at hm
      omega
    rcases hx : sys.materials[i]? with _ | m
    · rw [List.getElem?_eq_getElem hi] at hx
      cases hx
    have hm_eq : m = sys.materials.getD i defaultMaterial := by
      rw [List.getD_eq_getElem _ _ hi]
      rw [List.getElem?_eq_getElem hi] at hx
      exact (Option.some.inj hx).symm
    by_cases h0 : f * m.get_n sys.temperature = 0
    · simp only [LensSystem.transferAux, hx, if_pos h0]
    · simp only [LensSystem.transferAux, hx, if_neg h0]
      apply ih (i + 1)
      · simp only [List.length_cons] at hm
        omega
      · cases j with
        | zero =>
          exfalso
          apply h0
          rw [hm_eq]
          simpa using hz
        | succ j =>
          refine ⟨j, by simpa using hj, ?_⟩
          have he : i + (j + 1) = (i + 1) + j := by omega
          rw [List.getD_cons_succ, he] at hz
          exact hz

/-- Claim C1: with enough materials and every product f times n nonzero,
transfer_matrix is the left-to-right product of the per-lens propagation
and thin-lens factors starting from the identity; in particular a single
lens of focal length f with unit index and no distances yields the matrix
with entries 1, 0, -1/f, 1, whose lower-left readout -1/M[1][0] is f. -/
theorem C1_transfer_matrix :
    (∀ sys : LensSystem,
      sys.focal_lengths.length ≤ sys.materials.length →
      (∀ j, j < sys.focal_lengths.length →
        sys.focal_lengths.getD j 0 *
          ((sys.materials.getD j defaultMaterial).get_n sys.temperature) ≠ 0) →
      sys.transfer_matrix = some (specTransferMatrix sys)) ∧
    (∀ f : ℚ, f ≠ 0 → ∀ T : ℚ,
      (⟨[f], [], [⟨1, 0⟩], T⟩ : LensSystem).transfer_matrix = some ⟨1, 0, -1 / f, 1⟩ ∧
      -1 / (-1 / f) = f) := by
  constructor
  · intro sys hm hnz
    rw [LensSystem.transfer_matrix,
      transferAux_eq_foldl sys sys.focal_lengths 0 Mat2.eye
        (by simpa using hm) (by simpa using hnz)]
    simp only [Nat.zero_add, specTransferMatrix]
  · intro f hf T
    constructor
    · have hn : (OpticalMaterial.get_n ⟨1, 0⟩ T) = 1 := by
        simp [OpticalMaterial.get_n]
      simp only [LensSystem.transfer_matrix, LensSystem.transferAux]
      norm_num [hn, hf, Mat2.eye, Mat2.mul]
    · field_simp

/-- Witness for C1: the general product formula on the one-lens witness
system, and the single-lens instance at f = 5, T = 25. -/
theorem C1_transfer_matrix_witness :
    witnessSystem.focal_lengths.length ≤ witnessSystem.materials.length ∧
    witnessSystem.transfer_matrix = some (specTransferMatrix witnessSystem) ∧
    ((⟨[5], [], [⟨1, 0⟩], 25⟩ : LensSystem).transfer_matrix =
        some ⟨1, 0, -1 / 5, 1⟩ ∧
      -1 / (-1 / (5 : ℚ)) = 5) :=
  ⟨by decide,
   C1_transfer_matrix.1 witnessSystem (by decide) (by
     intro j hj
     have hj0 : j = 0 := by
       simp [witnessSystem] at hj
       omega
     subst hj0
     norm_num [witnessSystem, defaultMaterial, OpticalMaterial.get_n,
       OpticalMaterial.reference_temp]),
   C1_transfer_matrix.2 5 (by norm_num) 25⟩

/-- Claim C4: with enough materials, transfer_matrix completes (returns a
matrix) precisely under the precondition that every product f times n is
nonzero; when some product is zero the computation faults instead of being
handled, modelled as none. -/
theorem C4_transfer_matrix_safety (sys : LensSystem)
    (hm : sys.focal_lengths.length ≤ sys.materials.length) :
    ((∀ j, j < sys.focal_lengths.length →
        sys.focal_lengths.getD j 0 *
          ((sys.materials.getD j defaultMaterial).get_n sys.temperature) ≠ 0) →
      ∃ M, sys.transfer_matrix = some M) ∧
    ((∃ j, j < sys.focal_lengths.length ∧
        sys.focal_lengths.getD j 0 *
          ((sys.materials.getD j defaultMaterial).get_n sys.temperature) = 0) →
      sys.transfer_matrix = none) := by
  constructor
  · intro hnz
    rw [LensSystem.transfer_matrix,
      transferAux_eq_foldl sys sys.focal_lengths 0 Mat2.eye (by simpa using hm)
        (by simpa using hnz)]
    exact ⟨_, rfl⟩
  · rintro ⟨j, hj, hz⟩
    rw [LensSystem.transfer_matrix]
    apply transferAux_none sys sys.focal_lengths 0 Mat2.eye (by simpa using hm)
    exact ⟨j, hj, by simpa using hz⟩

/-- Witness for C4: a single lens of focal length zero makes the transfer
matrix computation fault. -/
theorem C4_transfer_matrix_safety_witness :
    (⟨[0], [], [⟨1, 0⟩], 20⟩ : LensSystem).focal_lengths.length ≤
      (⟨[0], [], [⟨1, 0⟩], 20⟩ : LensSystem).materials.length ∧
    (⟨[0], [], [⟨1, 0⟩], 20⟩ : LensSystem).transfer_matrix = none :=
  ⟨by decide,
    (C4_transfer_matrix_safety ⟨[0], [], [⟨1, 0⟩], 20⟩ (by decide)).2
      ⟨0, by decide, by norm_num⟩⟩
